import Mathlib

/-!
Verification of the fixation-log processing pipeline (`data.py`).

The pipeline reads per-session CSV files of raw eye-tracker samples,
filters invalid samples, normalizes each session into rows keyed by
`(image_name, user_id)`, prunes groups with too few fixations, and
concatenates all sessions into one corpus.

Shallow embedding conventions:
- a CSV file is a name together with its parsed rows (the tabular
  library and file I/O are external collaborators; reading a file is
  modelled as taking its row list);
- floats are embedded as rationals (the comparisons used by the code —
  equality with 0.5 and strict bounds against 0 and 1 — are exact);
- raised Python exceptions become `Except` errors.
-/

namespace FixationPipeline

/-- One raw row of an input CSV file, projected to the four required
columns `MEDIA_NAME`, `BPOGX`, `BPOGY`, `BPOGV`. -/
structure RawRow where
  media : String
  x : ℚ
  y : ℚ
  validity : Int
deriving DecidableEq, Repr

/-- One row of the cleaned output table: index `(image_name, user_id)`
with columns `x`, `y`. -/
structure FixationRecord where
  imageName : String
  userId : String
  x : ℚ
  y : ℚ
deriving DecidableEq, Repr

/-- An input session file: its (path) name and its parsed rows. -/
structure CsvFile where
  name : String
  rows : List RawRow
deriving DecidableEq, Repr

/-- The Python exceptions the pipeline can raise:
`IndexError` from `re.findall(...)[0]` on a non-matching name
(the spec's `InvalidFileName`), `NotImplementedError` (the spec's
`NotImplemented`), and `FileNotFoundError("No csv files found")`
(the spec's `NoDataFound`). -/
inductive PipelineError where
  | invalidFileName
  | notImplemented
  | noDataFound
deriving DecidableEq, Repr

/-- ASCII decimal digit, as matched by `\d` on the file names in use. -/
def isDigitChar (c : Char) : Bool := '0' ≤ c && c ≤ '9'

/-- Case-insensitive character comparison (`re.IGNORECASE`). -/
def eqIC (a b : Char) : Bool := a.toLower == b.toLower

/-- Case-insensitive match of a whole pattern against a char list of the
same length. -/
def ciMatches : List Char → List Char → Bool
  | [], [] => true
  | p :: ps, c :: cs => eqIC p c && ciMatches ps cs
  | _, _ => false

/-- One attempted match of the regex `(\d\d)_KH(\d\d\d)_fixations\.csv`
(case-insensitive) at the head of `cs`.  The pattern is fixed-length:
positions 0–1 the block digits, 2 an underscore, 3–4 `KH`, 5–7 the
viewer-id digits, 8–21 the literal `_fixations.csv`.  On success returns
the two capture groups. -/
def matchPat22 (cs : List Char) : Option (String × String) :=
  if 22 ≤ cs.length then
    if (cs.take 2).all isDigitChar
        && cs.get? 2 == some '_'
        && ciMatches ['k', 'h'] ((cs.drop 3).take 2)
        && ((cs.drop 5).take 3).all isDigitChar
        && ciMatches "_fixations.csv".toList ((cs.drop 8).take 14)
    then some (String.mk (cs.take 2), String.mk ((cs.drop 5).take 3))
    else none
  else none

/-- Left-to-right non-overlapping scan of `re.findall`: at each position
try the (fixed-length 22) pattern; on success emit the groups and resume
after the match, otherwise advance one character.  `fuel` bounds the
recursion; `length` fuel is always enough. -/
def findallGo : Nat → List Char → List (String × String)
  | 0, _ => []
  | _, [] => []
  | fuel + 1, c :: cs =>
    match matchPat22 (c :: cs) with
    | some g => g :: findallGo fuel ((c :: cs).drop 22)
    | none => findallGo fuel cs

/-- Embedding of `re.findall(r"(\d\d)_KH(\d\d\d)_fixations\.csv", s, re.IGNORECASE)`. -/
def findall (l : List Char) : List (String × String) :=
  findallGo l.length l

/-- Embedding of `re.findall(...)[0]`: taking element 0 of the match list raises
`IndexError` (`InvalidFileName`) when there is no match, and silently
uses the first match otherwise. -/
def extractMeta (fileName : String) : Except PipelineError (String × String) :=
  match findall fileName.toList with
  | [] => .error .invalidFileName
  | g :: _ => .ok g

/-- The three chained row filters of `process_csv`:
`df[df.BPOGV == 1]`, then `df[~((df.BPOGX == 0.5) & (df.BPOGY == 0.5))]`,
then `df[(df.BPOGX > 0) & (df.BPOGY > 0) & (df.BPOGX < 1) & (df.BPOGY < 1)]`. -/
def fixationFilter (rows : List RawRow) : List RawRow :=
  ((rows.filter (fun r => decide (r.validity = 1))).filter
      (fun r => decide (¬(r.x = mkRat 1 2 ∧ r.y = mkRat 1 2)))).filter
    (fun r => decide (0 < r.x ∧ 0 < r.y ∧ r.x < 1 ∧ r.y < 1))

/-- The normalization step of `process_csv`: derive `image_name`
(the media reference verbatim for new data, otherwise
`f"block {block_number}/"` prepended), attach `user_id`, keep `x`, `y`. -/
def normalize (blockNumber userId : String) (isNewData : Bool)
    (rows : List RawRow) : List FixationRecord :=
  rows.map fun r =>
    { imageName := if isNewData then r.media
        else "block " ++ blockNumber ++ "/" ++ r.media
      userId := userId
      x := r.x
      y := r.y }

/-- The `(image_name, user_id)` group key of a normalized row. -/
def keyOf (r : FixationRecord) : String × String := (r.imageName, r.userId)

/-- Number of rows of `rows` in the group of key `k`. -/
def countKey (rows : List FixationRecord) (k : String × String) : Nat :=
  (rows.filter (fun r => decide (keyOf r = k))).length

/-- Embedding of `df.groupby(["image_name", "user_id"]).filter(lambda x: len(x) >= m)`:
keep exactly the rows whose whole group has at least `m` members. -/
def prune (minFix : Int) (rows : List FixationRecord) : List FixationRecord :=
  rows.filter (fun r => decide (minFix ≤ (countKey rows (keyOf r) : Int)))

/-- Embedding of `process_csv`: parse the file name (raising on no match), read the
file, then — in source order — the `calculate_fixation_duration` guard,
the fixation filter, normalization, and group pruning. -/
def process_csv (fileName : String) (rows : List RawRow)
    (calculate_fixation_duration : Bool) (minimum_number_of_fixations : Int)
    (is_new_data : Bool) : Except PipelineError (List FixationRecord) :=
  match extractMeta fileName with
  | .error e => .error e
  | .ok (blockNumber, userId) =>
    if calculate_fixation_duration then .error .notImplemented
    else .ok (prune minimum_number_of_fixations
        (normalize blockNumber userId is_new_data (fixationFilter rows)))

/-- The per-file loop of `process_data`: process each discovered file in
order, collecting the cleaned tables; any per-file exception aborts the
whole run. -/
def collectTables (files : List CsvFile) (calculate_fixation_duration : Bool)
    (minimum_number_of_fixations : Int) (is_new_data : Bool) :
    Except PipelineError (List (List FixationRecord)) :=
  match files with
  | [] => .ok []
  | f :: fs =>
    match process_csv f.name f.rows calculate_fixation_duration
        minimum_number_of_fixations is_new_data with
    | .error e => .error e
    | .ok t =>
      match collectTables fs calculate_fixation_duration
          minimum_number_of_fixations is_new_data with
      | .error e => .error e
      | .ok ts => .ok (t :: ts)

/-- Embedding of `process_data`: the discovered candidate files stand in for the glob
result.  After the loop, an empty list of tables raises
`FileNotFoundError` (`NoDataFound`); otherwise the tables are
concatenated (`pd.concat`). -/
def process_data (files : List CsvFile) (calculate_fixation_duration : Bool)
    (minimum_number_of_fixations : Int) (is_new_data : Bool) :
    Except PipelineError (List FixationRecord) :=
  match collectTables files calculate_fixation_duration
      minimum_number_of_fixations is_new_data with
  | .error e => .error e
  | .ok ts => if ts.isEmpty then .error .noDataFound else .ok ts.flatten

/-! ### Helper lemmas -/

/-- The row predicate the three chained filters jointly enforce. -/
def keepRow (r : RawRow) : Bool :=
  decide (r.validity = 1) && decide (¬(r.x = mkRat 1 2 ∧ r.y = mkRat 1 2)) &&
    decide (0 < r.x ∧ 0 < r.y ∧ r.x < 1 ∧ r.y < 1)

lemma fixationFilter_eq_filter (rows : List RawRow) :
    fixationFilter rows = rows.filter keepRow := by
  unfold fixationFilter
  rw [List.filter_filter, List.filter_filter]
  apply List.filter_congr
  intro r _
  unfold keepRow
  cases h1 : decide (r.validity = 1) <;>
    cases h2 : decide (¬(r.x = mkRat 1 2 ∧ r.y = mkRat 1 2)) <;>
    cases h3 : decide (0 < r.x ∧ 0 < r.y ∧ r.x < 1 ∧ r.y < 1) <;> simp [h1, h2, h3]

lemma mem_prune {m : Int} {rows : List FixationRecord} {r : FixationRecord} :
    r ∈ prune m rows ↔ r ∈ rows ∧ m ≤ (countKey rows (keyOf r) : Int) := by
  simp [prune, List.mem_filter]

lemma countKey_pos_iff {rows : List FixationRecord} {k : String × String} :
    0 < countKey rows k ↔ ∃ r ∈ rows, keyOf r = k := by
  unfold countKey
  rw [List.length_pos_iff_exists_mem]
  constructor
  · rintro ⟨r, hr⟩
    rw [List.mem_filter] at hr
    exact ⟨r, hr.1, by simpa using hr.2⟩
  · rintro ⟨r, hr, hk⟩
    exact ⟨r, List.mem_filter.2 ⟨hr, by simpa using hk⟩⟩

lemma ciMatches_length : ∀ {p s : List Char}, ciMatches p s = true → s.length = p.length := by
  intro p
  induction p with
  | nil =>
    intro s h
    cases s with
    | nil => rfl
    | cons c cs => simp [ciMatches] at h
  | cons a as ih =>
    intro s h
    cases s with
    | nil => simp [ciMatches] at h
    | cons c cs =>
      simp only [ciMatches, Bool.and_eq_true] at h
      simp [ih h.2]

/-! ### Claim theorems -/

/-- C1.  The Fixation Filter keeps exactly the input rows with
`validity = 1`, not the degenerate pair `(0.5, 0.5)`, and with both
coordinates strictly inside `(0, 1)`; in particular a row with
`validity = 1, x = 0.5, y = 0.5` is dropped, and a row with
`validity ≠ 1` is dropped regardless of coordinates. -/
theorem fixationFilter_membership (rows : List RawRow) (r : RawRow) :
    r ∈ fixationFilter rows ↔
      r ∈ rows ∧ r.validity = 1 ∧ ¬(r.x = mkRat 1 2 ∧ r.y = mkRat 1 2) ∧
        (0 < r.x ∧ 0 < r.y ∧ r.x < 1 ∧ r.y < 1) := by
  rw [fixationFilter_eq_filter, List.mem_filter]
  unfold keepRow
  simp only [Bool.and_eq_true, decide_eq_true_eq]
  tauto

/-- C8.  The Fixation Filter is idempotent: applying it to its own
output returns that output unchanged. -/
theorem fixationFilter_idempotent (rows : List RawRow) :
    fixationFilter (fixationFilter rows) = fixationFilter rows := by
  rw [fixationFilter_eq_filter, fixationFilter_eq_filter, List.filter_filter]
  apply List.filter_congr
  intro r _
  cases h : keepRow r <;> simp [h]

/-- C3.  The Group Pruner acts group-wise on the partition of the rows
by the `(imageName, viewerId)` key: a group whose row count reaches
`minimumFixations` is kept in full and unchanged (so a group of exactly
the threshold size is fully retained), and a group below the threshold
is entirely absent, not truncated. -/
theorem groupPruner_spec (minFix : Int) (rows : List FixationRecord)
    (k : String × String) (hmin : 0 ≤ minFix) :
    (prune minFix rows).filter (fun r => decide (keyOf r = k)) =
      if minFix ≤ (countKey rows k : Int) then
        rows.filter (fun r => decide (keyOf r = k))
      else [] := by
  unfold prune
  rw [List.filter_filter]
  split
  · next h =>
    apply List.filter_congr
    intro r _
    by_cases hk : keyOf r = k
    · simp [hk, h]
    · simp [hk]
  · next h =>
    rw [List.filter_eq_nil_iff]
    intro r _
    by_cases hk : keyOf r = k
    · simp [hk, h]
    · simp [hk]

/-- C10.  With a non-positive `minimum_number_of_fixations`, the Group
Pruner is the identity: every group count is at least the threshold, so
every row is kept unchanged. -/
theorem prune_nonpos_identity (minFix : Int) (rows : List FixationRecord)
    (hm : minFix ≤ 0) : prune minFix rows = rows := by
  unfold prune
  rw [List.filter_eq_self]
  intro r _
  simp only [decide_eq_true_eq]
  have : (0 : Int) ≤ (countKey rows (keyOf r) : Int) := Int.natCast_nonneg _
  omega

/-- C6.  The Session Normalizer maps each filtered row to a record whose
`imageName` is the media reference verbatim when the new-layout flag is
set, and `"block " ++ blockNumber ++ "/" ++ mediaReference` otherwise,
and whose `userId` is the session's viewer id, keeping `x` and `y`. -/
theorem normalize_membership (b u : String) (isNew : Bool)
    (rows : List RawRow) (rec : FixationRecord) :
    rec ∈ normalize b u isNew rows ↔
      ∃ r ∈ rows,
        rec = { imageName := if isNew then r.media
                  else "block " ++ b ++ "/" ++ r.media
                userId := u
                x := r.x
                y := r.y } := by
  simp only [normalize, List.mem_map, eq_comm]

/-- C7.  When the enumeration discovers zero candidate session files,
`process_data` fails with `NoDataFound` (for any flag settings); in that
case it never returns a corpus, empty or otherwise. -/
theorem processData_empty_noDataFound (cd : Bool) (m : Int) (n : Bool) :
    process_data [] cd m n = .error .noDataFound := rfl

/-- C4.  On a file name following the convention — two block digits, an
underscore, the viewer-id letters `kh` in either case, three viewer-id
digits, then `_fixations.csv` matched case-insensitively — the extractor
returns exactly the embedded block number and viewer id as digit
strings, leading zeros preserved. -/
theorem extractMeta_valid_name (b1 b2 p1 p2 v1 v2 v3 : Char) (suf : List Char)
    (hb1 : isDigitChar b1 = true) (hb2 : isDigitChar b2 = true)
    (hp : ciMatches ['k', 'h'] [p1, p2] = true)
    (hv1 : isDigitChar v1 = true) (hv2 : isDigitChar v2 = true)
    (hv3 : isDigitChar v3 = true)
    (hsuf : ciMatches "_fixations.csv".toList suf = true) :
    extractMeta (String.mk ([b1, b2, '_', p1, p2, v1, v2, v3] ++ suf)) =
      .ok (String.mk [b1, b2], String.mk [v1, v2, v3]) := by
  have hsuf' : ciMatches
      ['_', 'f', 'i', 'x', 'a', 't', 'i', 'o', 'n', 's', '.', 'c', 's', 'v']
      suf = true := hsuf
  have hlen : suf.length = 14 := by
    have := ciMatches_length hsuf
    simpa using this
  set l : List Char := [b1, b2, '_', p1, p2, v1, v2, v3] ++ suf with hl
  have hlen22 : l.length = 22 := by simp [hl, hlen]
  have h1 : l.take 2 = [b1, b2] := rfl
  have h2 : l.get? 2 = some '_' := rfl
  have h3 : (l.drop 3).take 2 = [p1, p2] := rfl
  have h4 : (l.drop 5).take 3 = [v1, v2, v3] := rfl
  have h5 : (l.drop 8).take 14 = suf := by
    have h5a : l.drop 8 = suf := rfl
    rw [h5a]
    exact List.take_of_length_le (by omega)
  have hmatch : matchPat22 l = some (String.mk [b1, b2], String.mk [v1, v2, v3]) := by
    unfold matchPat22
    rw [if_pos (by omega)]
    rw [h1, h2, h3, h4, h5]
    simp [hb1, hb2, hp, hv1, hv2, hv3, hsuf']
  have hdrop : l.drop 22 = [] := List.drop_eq_nil_of_le (by omega)
  have step1 : findallGo 22 l
      = match matchPat22 l with
        | some g => g :: findallGo 21 (l.drop 22)
        | none => findallGo 21 ([b2, '_', p1, p2, v1, v2, v3] ++ suf) := rfl
  rw [hmatch, hdrop] at step1
  have hfind : findall l = [(String.mk [b1, b2], String.mk [v1, v2, v3])] := by
    unfold findall
    rw [hlen22, step1]
    rfl
  have htl : (String.mk l).toList = l := rfl
  unfold extractMeta
  rw [htl, hfind]

/-- Witness for C4 at the spec's own example
`"07_kh042_fixations.csv" ↦ ("07", "042")`. -/
theorem extractMeta_valid_name_witness :
    extractMeta (String.mk
        (['0', '7', '_', 'k', 'h', '0', '4', '2'] ++ "_fixations.csv".toList)) =
      .ok (String.mk ['0', '7'], String.mk ['0', '4', '2']) :=
  extractMeta_valid_name '0' '7' 'k' 'h' '0' '4' '2' "_fixations.csv".toList
    (by decide) (by decide) (by decide) (by decide) (by decide) (by decide)
    (by decide)

/-- Counterexample for C5: a file name containing the pattern twice is
not rejected — the extractor silently proceeds with the first of the two
matches, because the code indexes `re.findall(...)[0]`. -/
theorem extractMeta_two_matches_not_rejected :
    (findall "07_kh042_fixations.csv07_kh042_fixations.csv".toList).length = 2 ∧
      extractMeta "07_kh042_fixations.csv07_kh042_fixations.csv" =
        .ok ("07", "042") :=
  ⟨rfl, rfl⟩

/-- C5 as amended.  The extractor fails with `InvalidFileName` exactly
when the pattern has zero matches in the file name; when one or more
matches exist, it proceeds with the first match instead of failing. -/
theorem extractMeta_error_iff_no_match (s : String) :
    extractMeta s = .error .invalidFileName ↔ findall s.toList = [] := by
  unfold extractMeta
  cases h : findall s.toList <;> simp

/-- Counterexample for C2: with `calculate_fixation_duration = true` and
zero candidate files (for instance a nonexistent root folder), the run
raises `NoDataFound`, not `NotImplemented` — the flag guard sits inside
the per-file routine, so it is never reached without a file. -/
theorem processData_flag_without_files_noDataFound :
    process_data [] true 3 true = .error .noDataFound ∧
      process_data [] true 3 true ≠ .error .notImplemented := by
  refine ⟨rfl, fun h => ?_⟩
  rw [show process_data [] true 3 true = .error .noDataFound from rfl] at h
  exact PipelineError.noConfusion (Except.error.inj h)

/-- C2 as amended.  With `calculate_fixation_duration = true`, the run
fails with `NotImplemented` only once the first candidate file is
processed: its name is parsed (and its contents read) first, and then
the flag guard fires, for any remaining files and other parameters. -/
theorem notImplemented_after_filename_parse (f : CsvFile) (fs : List CsvFile)
    (m : Int) (n : Bool) (g : String × String)
    (hname : extractMeta f.name = .ok g) :
    process_data (f :: fs) true m n = .error .notImplemented := by
  obtain ⟨b, u⟩ := g
  unfold process_data collectTables process_csv
  rw [hname]
  simp

lemma collectTables_ok_mem (files : List CsvFile) (m : Int) (n : Bool)
    (ts : List (List FixationRecord))
    (h : collectTables files false m n = .ok ts) (r : FixationRecord) :
    r ∈ ts.flatten ↔
      ∃ f ∈ files, ∃ b u, extractMeta f.name = .ok (b, u) ∧
        r ∈ prune m (normalize b u n (fixationFilter f.rows)) := by
  induction files generalizing ts with
  | nil =>
    unfold collectTables at h
    have hts := Except.ok.inj h
    subst hts
    simp
  | cons f fs ih =>
    unfold collectTables at h
    cases hf : process_csv f.name f.rows false m n with
    | error e => rw [hf] at h; exact absurd h (by simp)
    | ok t =>
      rw [hf] at h
      cases hc : collectTables fs false m n with
      | error e => rw [hc] at h; exact absurd h (by simp)
      | ok ts2 =>
        rw [hc] at h
        have hts := Except.ok.inj h
        subst hts
        unfold process_csv at hf
        cases he : extractMeta f.name with
        | error e => rw [he] at hf; exact absurd hf (by simp)
        | ok g =>
          obtain ⟨b0, u0⟩ := g
          rw [he] at hf
          simp only [Bool.false_eq_true, if_false] at hf
          have ht := Except.ok.inj hf
          subst ht
          rw [List.flatten_cons, List.mem_append, ih ts2 hc]
          constructor
          · rintro (hr | ⟨f2, hf2, b, u, heu, hr⟩)
            · exact ⟨f, List.mem_cons_self f fs, b0, u0, he, hr⟩
            · exact ⟨f2, List.mem_cons_of_mem f hf2, b, u, heu, hr⟩
          · rintro ⟨f2, hf2, b, u, heu, hr⟩
            rcases List.mem_cons.1 hf2 with rfl | hf2
            · left
              rw [he] at heu
              have := Except.ok.inj heu
              rw [Prod.mk.injEq] at this
              obtain ⟨rfl, rfl⟩ := this
              exact hr
            · right
              exact ⟨f2, hf2, b, u, heu, hr⟩

/-- C9.  Group pruning happens per session file, before concatenation: a
key appears in a successfully produced corpus exactly when at least one
single file's normalized, filtered rows contain it at least
`minimumFixations` times (for a positive threshold); rows of the same
key spread across files below the per-file threshold never add up. -/
theorem corpusKey_iff_single_file_meets_threshold (files : List CsvFile)
    (m : Int) (n : Bool) (k : String × String) (corpus : List FixationRecord)
    (hmin : 1 ≤ m)
    (hrun : process_data files false m n = .ok corpus) :
    (∃ r ∈ corpus, keyOf r = k) ↔
      ∃ f ∈ files, ∃ b u, extractMeta f.name = .ok (b, u) ∧
        m ≤ (countKey (normalize b u n (fixationFilter f.rows)) k : Int) := by
  unfold process_data at hrun
  cases hc : collectTables files false m n with
  | error e => rw [hc] at hrun; exact absurd hrun (by simp)
  | ok ts =>
    rw [hc] at hrun
    have hrun2 : (if ts.isEmpty then Except.error PipelineError.noDataFound
        else Except.ok ts.flatten) = Except.ok corpus := hrun
    by_cases hts : ts.isEmpty
    · rw [if_pos hts] at hrun2; exact absurd hrun2 (by simp)
    · rw [if_neg hts] at hrun2
      have hcor := Except.ok.inj hrun2
      subst hcor
      constructor
      · rintro ⟨r, hr, hk⟩
        obtain ⟨f, hf, b, u, he, hpr⟩ := (collectTables_ok_mem files m n ts hc r).1 hr
        refine ⟨f, hf, b, u, he, ?_⟩
        have hcnt := (mem_prune.1 hpr).2
        rwa [hk] at hcnt
      · rintro ⟨f, hf, b, u, he, hcount⟩
        have hpos : 0 < countKey (normalize b u n (fixationFilter f.rows)) k := by
          omega
        obtain ⟨r, hrmem, hk⟩ := countKey_pos_iff.1 hpos
        refine ⟨r, ?_, hk⟩
        apply (collectTables_ok_mem files m n ts hc r).2
        refine ⟨f, hf, b, u, he, mem_prune.2 ⟨hrmem, ?_⟩⟩
        rwa [hk]

/-! ### Concrete data for the witnesses -/

/-- A valid sample row (validity 1, coordinates inside `(0, 1)`). -/
def exRowA : RawRow :=
  { media := "img1", x := mkRat 1 5, y := mkRat 3 10, validity := 1 }

/-- Another valid sample row for the same image. -/
def exRowB : RawRow :=
  { media := "img1", x := mkRat 2 5, y := mkRat 3 5, validity := 1 }

/-- A session file with a well-formed name and two valid rows. -/
def exFileOne : CsvFile :=
  { name := "01_kh001_fixations.csv", rows := [exRowA, exRowB] }

/-- A second session file of the same viewer with two valid rows. -/
def exFileTwo : CsvFile :=
  { name := "02_kh001_fixations.csv", rows := [exRowA, exRowB] }

/-- A normalized record in group `("A", "001")`. -/
def exRecA : FixationRecord :=
  { imageName := "A", userId := "001", x := mkRat 1 5, y := mkRat 3 10 }

/-- A normalized record in group `("B", "001")`. -/
def exRecB : FixationRecord :=
  { imageName := "B", userId := "001", x := mkRat 2 5, y := mkRat 3 5 }

/-- A normalized table: group `("A", "001")` has exactly 3 rows, group
`("B", "001")` has 1 row. -/
def exRecords : List FixationRecord := [exRecA, exRecA, exRecA, exRecB]

/-! ### Witnesses -/

/-- Witness for C3: with threshold 3, the group `("A", "001")` of
exactly 3 rows is fully retained. -/
theorem groupPruner_spec_witness :
    (0 : Int) ≤ 3 ∧
      ((prune 3 exRecords).filter (fun r => decide (keyOf r = ("A", "001"))) =
        if (3 : Int) ≤ (countKey exRecords ("A", "001") : Int) then
          exRecords.filter (fun r => decide (keyOf r = ("A", "001")))
        else []) :=
  ⟨by decide, groupPruner_spec 3 exRecords ("A", "001") (by decide)⟩

/-- Witness for C10: with threshold 0 the pruner keeps the table as is. -/
theorem prune_nonpos_identity_witness :
    (0 : Int) ≤ 0 ∧ prune 0 exRecords = exRecords :=
  ⟨by decide, prune_nonpos_identity 0 exRecords (by decide)⟩

/-- Witness for the amended C2: one well-named candidate file makes the
flagged run fail with `NotImplemented`. -/
theorem notImplemented_after_filename_parse_witness :
    extractMeta "01_kh001_fixations.csv" = .ok ("01", "001") ∧
      process_data [exFileOne] true 3 true = .error .notImplemented :=
  ⟨rfl, notImplemented_after_filename_parse exFileOne [] 3 true ("01", "001") rfl⟩

/-- Witness for C9: two files with 2 valid rows each for the key
`("img1", "001")` — 4 rows in total, threshold 3 — still yield a corpus
with the key absent (here, an empty corpus), because pruning is applied
per file. -/
theorem corpusKey_iff_single_file_meets_threshold_witness :
    (1 : Int) ≤ 3 ∧
      process_data [exFileOne, exFileTwo] false 3 true = .ok [] ∧
      ((∃ r ∈ ([] : List FixationRecord), keyOf r = ("img1", "001")) ↔
        ∃ f ∈ [exFileOne, exFileTwo], ∃ b u, extractMeta f.name = .ok (b, u) ∧
          (3 : Int) ≤
            (countKey (normalize b u true (fixationFilter f.rows))
              ("img1", "001") : Int)) :=
  ⟨by decide, rfl,
    corpusKey_iff_single_file_meets_threshold [exFileOne, exFileTwo] 3 true
      ("img1", "001") [] (by decide) rfl⟩

end FixationPipeline
